import Mathlib

/-!
Shallow embedding of the game simulation core of the `webxr-first-steps`
repository, together with theorems checking the natural-language
specification against it.

The embedding covers:
* `src/src/game/GameManager.js` — the session controller (`GameState`,
  `LEVELS`, `GameManager` and its methods), embedded as a pure state
  record plus operations returning the new state together with the list
  of observer-callback events fired during the call.
* the arena simulation in the main module (`initializeTargets`,
  `updateBullets`, `updateTargets`, `onFrame`) — targets, bullets and the
  per-frame update, embedded as pure functions on an explicit world state.

JS numbers are modelled as `Rat` (for times, positions, speeds) and `Int`
(for scores); the code performs no floating-point-specific operation on
the values the claims are about, so exact rational arithmetic is a
faithful model of the arithmetic the claims mention.
-/

namespace WebXR

/-- Game states enum (`GameState` in GameManager.js). -/
inductive GameState where
  | menu
  | playing
  | levelComplete
  | gameOver
deriving DecidableEq, Repr, Inhabited

/-- One level configuration record (an entry of `LEVELS`).
Only the fields the simulation reads are kept; `name`/`description`
are presentation-only strings never read by the core. -/
structure LevelConfig where
  id : Nat
  targetCount : Nat
  targetSpeed : Rat
  scoreToComplete : Int
  timeLimit : Rat
  movingTargets : Bool
deriving DecidableEq, Repr, Inhabited

/-- The level catalog `LEVELS` from GameManager.js, field for field. -/
def LEVELS : List LevelConfig :=
  [ { id := 1, targetCount := 3, targetSpeed := 0, scoreToComplete := 30,
      timeLimit := 60, movingTargets := false },
    { id := 2, targetCount := 5, targetSpeed := 0, scoreToComplete := 80,
      timeLimit := 60, movingTargets := false },
    { id := 3, targetCount := 5, targetSpeed := 0, scoreToComplete := 150,
      timeLimit := 45, movingTargets := false },
    { id := 4, targetCount := 5, targetSpeed := 1.5, scoreToComplete := 200,
      timeLimit := 60, movingTargets := true },
    { id := 5, targetCount := 7, targetSpeed := 2.5, scoreToComplete := 300,
      timeLimit := 90, movingTargets := true } ]

/-- Observer-callback events fired by GameManager methods
(`onStateChange`, `onScoreChange`, `onTimeChange`). Each constructor
records the value passed to the corresponding callback. -/
inductive GMEvent where
  | stateChange (s : GameState)
  | scoreChange (score : Int)
  | timeChange (t : Rat)
deriving DecidableEq, Repr

/-- The mutable state of the `GameManager` class. The settings object and
the persistence hooks (`loadSettings` / `saveSettings`) touch external
storage only and never feed back into the fields below, so they are not
modelled. -/
structure GameManager where
  state : GameState
  currentLevel : Int
  score : Int
  timeRemaining : Rat
  highScores : List Int
deriving DecidableEq, Repr

/-- The `GameManager` constructor (in a fresh environment `loadSettings`
finds no stored data and leaves the defaults in place). -/
def initGameManager : GameManager :=
  { state := GameState.menu
    currentLevel := 0
    score := 0
    timeRemaining := 0
    highScores := [0, 0, 0, 0, 0] }

namespace GameManager

/-- `getCurrentLevelConfig()`: clamps an out-of-range `currentLevel` to
the first catalog entry, otherwise indexes `LEVELS`. The `getD` default
is unreachable because the index has been range-checked. -/
def getCurrentLevelConfig (gm : GameManager) : LevelConfig :=
  if gm.currentLevel < 0 ∨ (LEVELS.length : Int) ≤ gm.currentLevel then
    LEVELS.getD 0 default
  else
    LEVELS.getD gm.currentLevel.toNat default

/-- `setState(newState)`: writes the field and fires `onStateChange`. -/
def setState (gm : GameManager) (newState : GameState) :
    GameManager × List GMEvent :=
  ({ gm with state := newState }, [GMEvent.stateChange newState])

/-- `startLevel(levelIndex)`: coerces an invalid index to 0, resets the
score, loads the level time limit, enters Playing, fires
`onStateChange` then `onScoreChange(0)`. -/
def startLevel (gm : GameManager) (levelIndex : Int) :
    GameManager × List GMEvent :=
  let levelIndex :=
    if levelIndex < 0 ∨ (LEVELS.length : Int) ≤ levelIndex then 0 else levelIndex
  let gm := { gm with currentLevel := levelIndex, score := 0 }
  let levelConfig := gm.getCurrentLevelConfig
  let gm := { gm with timeRemaining := levelConfig.timeLimit }
  let r := gm.setState GameState.playing
  (r.1, r.2 ++ [GMEvent.scoreChange r.1.score])

/-- `completeLevel()`: records a new high score when the achieved score
beats the stored one (the JS guard `score > highScores[currentLevel]`
is false when the index is out of the array's range, because indexing
then yields `undefined`), then enters LevelComplete. -/
def completeLevel (gm : GameManager) : GameManager × List GMEvent :=
  let gm :=
    match gm.highScores.get? gm.currentLevel.toNat with
    | some hs =>
        if 0 ≤ gm.currentLevel ∧ hs < gm.score then
          { gm with
            highScores := gm.highScores.set gm.currentLevel.toNat gm.score }
        else gm
    | none => gm
  gm.setState GameState.levelComplete

/-- `addScore(points)`: unconditionally adds to the score (no state
guard and no sign check in the source), fires `onScoreChange`, then
completes the level when the score has reached the goal. -/
def addScore (gm : GameManager) (points : Int) :
    GameManager × List GMEvent :=
  let gm := { gm with score := gm.score + points }
  let evs := [GMEvent.scoreChange gm.score]
  let levelConfig := gm.getCurrentLevelConfig
  if levelConfig.scoreToComplete ≤ gm.score then
    let r := gm.completeLevel
    (r.1, evs ++ r.2)
  else
    (gm, evs)

/-- `gameOver()`: enters GameOver. -/
def gameOver (gm : GameManager) : GameManager × List GMEvent :=
  gm.setState GameState.gameOver

/-- `updateTime(delta)`: returns unchanged unless Playing; subtracts the
delta, fires `onTimeChange` with the not-yet-clamped value, then clamps
at 0 and ends the game when the result is ≤ 0. -/
def updateTime (gm : GameManager) (delta : Rat) :
    GameManager × List GMEvent :=
  if gm.state ≠ GameState.playing then (gm, [])
  else
    let gm := { gm with timeRemaining := gm.timeRemaining - delta }
    let evs := [GMEvent.timeChange gm.timeRemaining]
    if gm.timeRemaining ≤ 0 then
      let gm := { gm with timeRemaining := 0 }
      let r := gm.gameOver
      (r.1, evs ++ r.2)
    else
      (gm, evs)

/-- `goToMenu()`: enters Menu. -/
def goToMenu (gm : GameManager) : GameManager × List GMEvent :=
  gm.setState GameState.menu

/-- `nextLevel()`: advances to the next level while one exists,
otherwise returns to the menu. -/
def nextLevel (gm : GameManager) : GameManager × List GMEvent :=
  if gm.currentLevel < (LEVELS.length : Int) - 1 then
    gm.startLevel (gm.currentLevel + 1)
  else
    gm.goToMenu

/-- `restartLevel()`: restarts the current level. -/
def restartLevel (gm : GameManager) : GameManager × List GMEvent :=
  gm.startLevel gm.currentLevel

end GameManager

/-- The public mutating operations of the session controller, used to
state properties quantified over every controller call. -/
inductive Op where
  | startLevel (i : Int)
  | addScore (p : Int)
  | updateTime (delta : Rat)
  | nextLevel
  | goToMenu
  | restartLevel
deriving DecidableEq, Repr

/-- Applies one controller operation. -/
def applyOp (gm : GameManager) : Op → GameManager × List GMEvent
  | Op.startLevel i => gm.startLevel i
  | Op.addScore p => gm.addScore p
  | Op.updateTime d => gm.updateTime d
  | Op.nextLevel => gm.nextLevel
  | Op.goToMenu => gm.goToMenu
  | Op.restartLevel => gm.restartLevel

/-! ## Arena simulation (main module: targets, bullets, per-frame update) -/

/-- A 3D vector with exact rational coordinates. -/
structure Vec3 where
  x : Rat
  y : Rat
  z : Rat
deriving DecidableEq, Repr, Inhabited

/-- Componentwise vector addition (`Vector3.add`). -/
def Vec3.add (a b : Vec3) : Vec3 :=
  ⟨a.x + b.x, a.y + b.y, a.z + b.z⟩

/-- Scalar multiplication (`Vector3.multiplyScalar`). -/
def Vec3.smul (a : Vec3) (c : Rat) : Vec3 :=
  ⟨a.x * c, a.y * c, a.z * c⟩

/-- Squared euclidean distance. The source compares
`target.position.distanceTo(bullet.position) < 1`; since both sides are
non-negative and the threshold is 1, that comparison is equivalent to
`distSq < 1`, which avoids an irrational square root. -/
def Vec3.distSq (a b : Vec3) : Rat :=
  (a.x - b.x) ^ 2 + (a.y - b.y) ^ 2 + (a.z - b.z) ^ 2

/-- A pooled target (an entry of the `targets` array; the fields live in
`target.userData` plus the Object3D `visible`/`position`). The source
normalizes `moveDirection`; normalization only rescales the vector by a
positive real factor and no claim concerns the vector's length, so the
direction is kept unnormalized to stay within rational arithmetic. The
render-only `scale` is not modelled. -/
structure Target where
  visible : Bool
  position : Vec3
  moveDirection : Vec3
  moveSpeed : Rat
  isMoving : Bool
deriving DecidableEq, Repr, Inhabited

/-- A live bullet (`bullet.position` plus the `userData` fields). -/
structure Bullet where
  position : Vec3
  velocity : Vec3
  timeToLive : Rat
deriving DecidableEq, Repr

/-- `bulletSpeed` constant. -/
def bulletSpeed : Rat := 10

/-- `bulletTimeToLive` constant. -/
def bulletTimeToLive : Rat := 1

/-- A freshly cloned instance of `targetModel`. Every field is
overwritten before the clone becomes observable, so its initial values
are arbitrary. -/
def cloneTargetModel : Target :=
  { visible := true
    position := ⟨0, 0, 0⟩
    moveDirection := ⟨0, 0, 0⟩
    moveSpeed := 0
    isMoving := false }

/-- The body of the activation loop of `initializeTargets` applied to one
target slot: makes it visible, assigns the randomized position
(`Math.random()*10-5`, `Math.random()*2+1`, `-Math.random()*5-5`), the
randomized movement direction and the level's speed/movement flag.
`rng` is the stream of `Math.random()` results and `k` the index of the
next unconsumed one; the loop consumes five per activated slot. -/
def mkActiveTarget (levelConfig : LevelConfig) (rng : Nat → Rat) (k : Nat)
    (t : Target) : Target :=
  { t with
    visible := true
    position := ⟨rng k * 10 - 5, rng (k + 1) * 2 + 1, -(rng (k + 2) * 5) - 5⟩
    moveDirection := ⟨rng (k + 3) - 0.5, rng (k + 4) - 0.5, 0⟩
    moveSpeed := levelConfig.targetSpeed
    isMoving := levelConfig.movingTargets }

/-- The `for (let i = 0; i < targetCount; i++)` loop of
`initializeTargets`, with the number of remaining iterations as the
first argument (the caller passes `targetCount`, so slot index `i` runs
over `0, …, targetCount - 1` exactly as in the source): reuse slot `i`
when the pool already has it, else clone the target model when it has
loaded, else `continue` (skipping the slot and consuming no
randomness). -/
def initTargetsLoop (levelConfig : LevelConfig) (hasTargetModel : Bool)
    (rng : Nat → Rat) : Nat → Nat → Nat → List Target → List Target
  | 0, _, _, targets => targets
  | n + 1, i, k, targets =>
    if h : i < targets.length then
      initTargetsLoop levelConfig hasTargetModel rng n (i + 1) (k + 5)
        (targets.set i (mkActiveTarget levelConfig rng k (targets.get ⟨i, h⟩)))
    else if hasTargetModel then
      initTargetsLoop levelConfig hasTargetModel rng n (i + 1) (k + 5)
        (targets ++ [mkActiveTarget levelConfig rng k cloneTargetModel])
    else
      initTargetsLoop levelConfig hasTargetModel rng n (i + 1) k targets

/-- `initializeTargets(levelConfig)`: hides every pooled target, then
runs the activation loop for `targetCount` iterations. `hasTargetModel`
says whether the `targetModel` asset has finished loading. -/
def initializeTargets (levelConfig : LevelConfig) (hasTargetModel : Bool)
    (rng : Nat → Rat) (targets : List Target) : List Target :=
  let hidden := targets.map fun t => { t with visible := false }
  initTargetsLoop levelConfig hasTargetModel rng levelConfig.targetCount 0 0 hidden

/-- The combined state the per-frame update acts on: the game manager
plus the arena's live bullets (in insertion order, as `Object.values`
iterates them) and the target pool. -/
structure World where
  gm : GameManager
  bullets : List Bullet
  targets : List Target
deriving DecidableEq, Repr

/-- Advances one bullet: `position += velocity * delta` then
`timeToLive -= delta` (in the source the move happens first, then the
decrement; both land in the same record update). -/
def moveBullet (delta : Rat) (b : Bullet) : Bullet :=
  { b with
    position := b.position.add (b.velocity.smul delta)
    timeToLive := b.timeToLive - delta }

/-- The visible targets within the 1-unit hit radius of a bullet, in
target pool order (`targets.filter(visible)` then the distance test of
the inner `forEach`). -/
def bulletHits (targets : List Target) (b : Bullet) : List Target :=
  (targets.filter fun t => t.visible).filter
    fun t => decide (Vec3.distSq t.position b.position < 1)

/-- One iteration of the outer `forEach` of `updateBullets`, processing
one bullet from the `Object.values(bullets)` snapshot. A bullet whose
`timeToLive` was already below 0 is deleted before moving or testing
collisions. Otherwise it moves, its `timeToLive` is decremented, and the
inner loop calls `gameManager.addScore(10)` once per visible target
within the hit radius (the source deletes the bullet at the first hit
but keeps iterating, so every in-range visible target scores); the
bullet survives the tick only when it hit nothing. The accumulator
carries the game manager, the fired events and the surviving bullets. -/
def stepBullet (targets : List Target) (delta : Rat)
    (acc : GameManager × List GMEvent × List Bullet) (b : Bullet) :
    GameManager × List GMEvent × List Bullet :=
  if b.timeToLive < 0 then
    acc
  else
    let b := moveBullet delta b
    let hits := bulletHits targets b
    let r := hits.foldl
      (fun (p : GameManager × List GMEvent) _ =>
        ((p.1.addScore 10).1, p.2 ++ (p.1.addScore 10).2))
      (acc.1, acc.2.1)
    if hits.isEmpty then (r.1, r.2, acc.2.2 ++ [b])
    else (r.1, r.2, acc.2.2)

/-- `updateBullets(delta, scene)`: returns unchanged unless Playing,
otherwise folds `stepBullet` over the bullet snapshot. Target
visibility does not change during the pass: a hit only starts a shrink
tween whose completion callback (0.3 s later) hides the target. -/
def updateBullets (delta : Rat) (w : World) : World × List GMEvent :=
  if w.gm.state ≠ GameState.playing then (w, [])
  else
    let r := w.bullets.foldl (stepBullet w.targets delta) (w.gm, [], [])
    ({ w with gm := r.1, bullets := r.2.2 }, r.2.1)

/-- Moves one target in `updateTargets`: only visible moving targets
advance; the JS fallback `moveSpeed || levelConfig.targetSpeed` kicks in
when the stored speed is 0 (falsy); direction components invert when the
position leaves `x ∈ [-5,5]` respectively `y ∈ [0.5,4]`. -/
def moveTarget (levelConfig : LevelConfig) (delta : Rat) (t : Target) :
    Target :=
  if t.visible ∧ t.isMoving then
    let moveSpeed :=
      if t.moveSpeed = 0 then levelConfig.targetSpeed else t.moveSpeed
    let x := t.position.x + t.moveDirection.x * moveSpeed * delta
    let y := t.position.y + t.moveDirection.y * moveSpeed * delta
    let dx := if x < -5 ∨ 5 < x then -t.moveDirection.x else t.moveDirection.x
    let dy := if y < 0.5 ∨ 4 < y then -t.moveDirection.y else t.moveDirection.y
    { t with
      position := ⟨x, y, t.position.z⟩
      moveDirection := ⟨dx, dy, t.moveDirection.z⟩ }
  else t

/-- `updateTargets(delta)`: returns unchanged unless Playing and the
current level has moving targets; otherwise applies `moveTarget` to the
pool (the source's filter-and-mutate over the array). -/
def updateTargets (delta : Rat) (w : World) : World × List GMEvent :=
  if w.gm.state ≠ GameState.playing then (w, [])
  else
    let levelConfig := w.gm.getCurrentLevelConfig
    if levelConfig.movingTargets then
      ({ w with targets := w.targets.map (moveTarget levelConfig delta) }, [])
    else (w, [])

/-- `onFrame(delta, ...)` restricted to the simulation core: the session
timer update runs first, then bullets, then targets, all synchronously
in this order. `handleUIInteraction` and `handleBlasterInput` only react
to external controller input; with no input event they leave the
modelled state unchanged, so a frame without input is modelled. The
returned event list concatenates the callbacks in firing order. -/
def onFrame (delta : Rat) (w : World) : World × List GMEvent :=
  let r1 := w.gm.updateTime delta
  let r2 := updateBullets delta { w with gm := r1.1 }
  let r3 := updateTargets delta r2.1
  (r3.1, r1.2 ++ r2.2 ++ r3.2)

end WebXR

namespace WebXR

/-! ## Helper lemmas about the session controller -/

/-- `completeLevel` keeps score, level and time, and lands in
LevelComplete. -/
theorem completeLevel_fields (gm : GameManager) :
    (gm.completeLevel).1.score = gm.score ∧
    (gm.completeLevel).1.currentLevel = gm.currentLevel ∧
    (gm.completeLevel).1.timeRemaining = gm.timeRemaining ∧
    (gm.completeLevel).1.state = GameState.levelComplete := by
  unfold GameManager.completeLevel GameManager.setState
  split
  · split <;> simp
  · simp

/-- `addScore` adds exactly the argument to the score, in every state,
and keeps the level index and the remaining time. -/
theorem addScore_fields (gm : GameManager) (p : Int) :
    (gm.addScore p).1.score = gm.score + p ∧
    (gm.addScore p).1.currentLevel = gm.currentLevel ∧
    (gm.addScore p).1.timeRemaining = gm.timeRemaining := by
  unfold GameManager.addScore
  dsimp only
  split
  · have h := completeLevel_fields { gm with score := gm.score + p }
    simp only at h
    exact ⟨h.1, h.2.1, h.2.2.1⟩
  · simp

/-- The state after `addScore`: LevelComplete as soon as the new score
reaches the goal, otherwise whatever it was. -/
theorem addScore_state (gm : GameManager) (p : Int) :
    (gm.addScore p).1.state =
      if (gm.getCurrentLevelConfig).scoreToComplete ≤ gm.score + p then
        GameState.levelComplete
      else gm.state := by
  unfold GameManager.addScore
  dsimp only
  have hcfg : ({ gm with score := gm.score + p } : GameManager).getCurrentLevelConfig
      = gm.getCurrentLevelConfig := rfl
  split
  · next hle =>
      rw [hcfg] at hle
      rw [if_pos hle]
      exact (completeLevel_fields { gm with score := gm.score + p }).2.2.2
  · next hle =>
      rw [hcfg] at hle
      rw [if_neg hle]

/-- `updateTime` outside Playing returns the state untouched and fires
nothing. -/
theorem updateTime_not_playing (gm : GameManager) (δ : Rat)
    (h : gm.state ≠ GameState.playing) : gm.updateTime δ = (gm, []) := by
  unfold GameManager.updateTime
  rw [if_pos h]

/-- `updateTime` while Playing, written out: the time-changed event
always carries the unclamped difference; the stored field is clamped. -/
theorem updateTime_playing (gm : GameManager) (δ : Rat)
    (h : gm.state = GameState.playing) :
    gm.updateTime δ =
      if gm.timeRemaining - δ ≤ 0 then
        ({ gm with timeRemaining := 0, state := GameState.gameOver },
         [GMEvent.timeChange (gm.timeRemaining - δ),
          GMEvent.stateChange GameState.gameOver])
      else
        ({ gm with timeRemaining := gm.timeRemaining - δ },
         [GMEvent.timeChange (gm.timeRemaining - δ)]) := by
  unfold GameManager.updateTime GameManager.gameOver GameManager.setState
  rw [if_neg (by simp [h])]
  dsimp only
  split <;> rfl

end WebXR

namespace WebXR

/-- `getCurrentLevelConfig` on an in-range index reads the catalog. -/
theorem getCurrentLevelConfig_in_range (gm : GameManager)
    (h0 : 0 ≤ gm.currentLevel) (h1 : gm.currentLevel < (LEVELS.length : Int)) :
    gm.getCurrentLevelConfig = LEVELS.getD gm.currentLevel.toNat default := by
  unfold GameManager.getCurrentLevelConfig
  rw [if_neg (by omega)]

/-- `getCurrentLevelConfig` on an out-of-range index falls back to the
first catalog entry. -/
theorem getCurrentLevelConfig_out_of_range (gm : GameManager)
    (h : gm.currentLevel < 0 ∨ (LEVELS.length : Int) ≤ gm.currentLevel) :
    gm.getCurrentLevelConfig = LEVELS.getD 0 default := by
  unfold GameManager.getCurrentLevelConfig
  rw [if_pos h]

/-- `startLevel`, written out after resolving the coerced index. -/
theorem startLevel_eq (gm : GameManager) (i : Int)
    (j : Int) (hj : j = if i < 0 ∨ (LEVELS.length : Int) ≤ i then 0 else i) :
    gm.startLevel i =
      ({ gm with
           currentLevel := j
           score := 0
           timeRemaining := (LEVELS.getD j.toNat default).timeLimit
           state := GameState.playing },
       [GMEvent.stateChange GameState.playing, GMEvent.scoreChange 0]) := by
  have hrange : ¬ (j < 0 ∨ (LEVELS.length : Int) ≤ j) := by
    rw [hj]; split
    · norm_num [LEVELS]
    · next h => exact h
  push_neg at hrange
  unfold GameManager.startLevel GameManager.setState
  dsimp only
  rw [← hj]
  rw [getCurrentLevelConfig_in_range { gm with currentLevel := j, score := 0 }
    (by simpa using hrange.1) (by simpa using hrange.2)]
  simp

end WebXR

namespace WebXR

/-! ## C1 — addScore and the Playing guard -/

/-- C1 counterexample: on a fresh manager (state Menu, score 0),
`addScore(10)` changes the score to 10 — `addScore` outside Playing is
not a no-op, and the score changes while `state ≠ Playing`. -/
theorem C1_cex :
    initGameManager.state ≠ GameState.playing ∧
    initGameManager.score = 0 ∧
    (initGameManager.addScore 10).1.score = 10 :=
  ⟨by decide, by decide, by decide⟩

/-- C1 (amended): `addScore(p)` adds exactly `p` to the score in every
state — the source has no Playing guard, so while Playing with `p ≥ 0`
the score grows by exactly `p`, but outside Playing the call mutates
the score just the same. -/
theorem C1_addScore_adds (gm : GameManager) (p : Int) :
    (gm.addScore p).1.score = gm.score + p :=
  (addScore_fields gm p).1

/-! ## C2 — updateTime, clamping and the observed time value -/

/-- C2 counterexample: with 60 s remaining on level 0, `updateTime(70)`
passes −10 to the time-changed observer (the event fires before the
clamp), so a negative remaining time is observed by the callback. -/
theorem C2_cex :
    ((initGameManager.startLevel 0).1.updateTime 70).2 =
      [GMEvent.timeChange (-10), GMEvent.stateChange GameState.gameOver] ∧
    ((-10 : Rat) < 0) := by
  constructor
  · norm_num [GameManager.updateTime, GameManager.startLevel, GameManager.setState,
      GameManager.getCurrentLevelConfig, GameManager.gameOver, initGameManager, LEVELS]
  · norm_num

/-- C2 (amended): `updateTime` is ignored outside Playing; while
Playing it subtracts the delta, clamps the stored field at 0 (never
leaving it negative when it was non-negative) and switches to GameOver
exactly when the unclamped result is ≤ 0 — but the time-changed
callback receives the unclamped, possibly negative, difference. -/
theorem C2_updateTime (gm : GameManager) (δ : Rat) :
    (gm.state ≠ GameState.playing → gm.updateTime δ = (gm, [])) ∧
    (gm.state = GameState.playing →
      (gm.updateTime δ).2.head? =
        some (GMEvent.timeChange (gm.timeRemaining - δ)) ∧
      (gm.timeRemaining - δ ≤ 0 →
        (gm.updateTime δ).1.timeRemaining = 0 ∧
        (gm.updateTime δ).1.state = GameState.gameOver) ∧
      (0 < gm.timeRemaining - δ →
        (gm.updateTime δ).1.timeRemaining = gm.timeRemaining - δ ∧
        (gm.updateTime δ).1.state = GameState.playing)) ∧
    (0 ≤ gm.timeRemaining → 0 ≤ (gm.updateTime δ).1.timeRemaining) := by
  refine ⟨updateTime_not_playing gm δ, ?_, ?_⟩
  · intro h
    rw [updateTime_playing gm δ h]
    by_cases hle : gm.timeRemaining - δ ≤ 0
    · rw [if_pos hle]
      exact ⟨rfl, fun _ => ⟨rfl, rfl⟩, fun hgt => absurd hle (by linarith)⟩
    · rw [if_neg hle]
      exact ⟨rfl, fun hle2 => absurd hle2 hle, fun _ => ⟨rfl, h⟩⟩
  · intro h0
    by_cases hp : gm.state = GameState.playing
    · rw [updateTime_playing gm δ hp]
      by_cases hle : gm.timeRemaining - δ ≤ 0
      · rw [if_pos hle]
      · rw [if_neg hle]
        dsimp only
        linarith
    · rw [updateTime_not_playing gm δ hp]
      exact h0

/-- C2 witness: level 0 starts with 60 s; ticking 70 s clamps the field
to 0 and ends the game. -/
theorem C2_w :
    ((initGameManager.startLevel 0).1.updateTime 70).1.timeRemaining = 0 ∧
    ((initGameManager.startLevel 0).1.updateTime 70).1.state =
      GameState.gameOver :=
  ((C2_updateTime (initGameManager.startLevel 0).1 70).2.1 (by decide)).2.1
    (by norm_num [GameManager.startLevel, GameManager.setState,
      GameManager.getCurrentLevelConfig, initGameManager, LEVELS])

/-! ## C3 — negative inputs are not validated -/

/-- C3 counterexample: on level 0 (60 s, score 0) the negative inputs
are accepted and mutate state: `updateTime(−5)` raises the remaining
time to 65 and `addScore(−5)` lowers the score to −5; no failure is
signalled. -/
theorem C3_cex :
    (initGameManager.startLevel 0).1.timeRemaining = 60 ∧
    ((initGameManager.startLevel 0).1.updateTime (-5)).1.timeRemaining = 65 ∧
    (initGameManager.startLevel 0).1.score = 0 ∧
    ((initGameManager.startLevel 0).1.addScore (-5)).1.score = -5 := by
  norm_num [GameManager.updateTime, GameManager.startLevel, GameManager.setState,
    GameManager.getCurrentLevelConfig, GameManager.addScore,
    GameManager.completeLevel, GameManager.gameOver, initGameManager, LEVELS]

/-- C3 (amended): neither method validates its argument: while Playing
with a non-negative clock, `addScore` with negative points strictly
decreases the score and `updateTime` with a negative delta strictly
increases the remaining time — both calls mutate state instead of
rejecting. -/
theorem C3_no_validation (gm : GameManager) (p : Int) (δ : Rat)
    (hp : p < 0) (hδ : δ < 0) (hs : gm.state = GameState.playing)
    (ht : 0 ≤ gm.timeRemaining) :
    (gm.addScore p).1.score < gm.score ∧
    gm.timeRemaining < (gm.updateTime δ).1.timeRemaining := by
  constructor
  · rw [(addScore_fields gm p).1]
    omega
  · rw [updateTime_playing gm δ hs, if_neg (by push_neg; linarith)]
    dsimp only
    linarith

/-- C3 witness: the amended statement at level 0 with −5 for both
inputs. -/
theorem C3_w :
    ((initGameManager.startLevel 0).1.addScore (-5)).1.score <
      (initGameManager.startLevel 0).1.score ∧
    (initGameManager.startLevel 0).1.timeRemaining <
      ((initGameManager.startLevel 0).1.updateTime (-5)).1.timeRemaining :=
  C3_no_validation (initGameManager.startLevel 0).1 (-5) (-5)
    (by norm_num) (by norm_num) (by decide)
    (by norm_num [GameManager.startLevel, GameManager.setState,
      GameManager.getCurrentLevelConfig, initGameManager, LEVELS])

end WebXR

namespace WebXR

/-! ## C6 — startLevel -/

/-- C6: `startLevel` on a valid index resets the score, enters Playing,
records the index and loads that level's time limit; on any negative or
past-the-end index it behaves exactly as `startLevel(0)`. -/
theorem C6_startLevel (gm : GameManager) (i : Int) :
    (0 ≤ i → i < (LEVELS.length : Int) →
      (gm.startLevel i).1.score = 0 ∧
      (gm.startLevel i).1.state = GameState.playing ∧
      (gm.startLevel i).1.currentLevel = i ∧
      (gm.startLevel i).1.timeRemaining =
        (LEVELS.getD i.toNat default).timeLimit) ∧
    ((i < 0 ∨ (LEVELS.length : Int) ≤ i) →
      gm.startLevel i = gm.startLevel 0) := by
  constructor
  · intro h0 h1
    rw [startLevel_eq gm i i (by rw [if_neg (by omega)])]
    exact ⟨rfl, rfl, rfl, rfl⟩
  · intro h
    rw [startLevel_eq gm i 0 (by rw [if_pos h]),
        startLevel_eq gm 0 0 (by norm_num [LEVELS])]

/-- C6 witness: `startLevel(3)` loads level 3 (60 s) and `startLevel(−7)`
coincides with `startLevel(0)`. -/
theorem C6_w :
    ((initGameManager.startLevel 3).1.score = 0 ∧
     (initGameManager.startLevel 3).1.state = GameState.playing ∧
     (initGameManager.startLevel 3).1.currentLevel = 3 ∧
     (initGameManager.startLevel 3).1.timeRemaining =
       (LEVELS.getD (3 : Int).toNat default).timeLimit) ∧
    initGameManager.startLevel (-7) = initGameManager.startLevel 0 :=
  ⟨(C6_startLevel initGameManager 3).1 (by norm_num) (by norm_num [LEVELS]),
   (C6_startLevel initGameManager (-7)).2 (Or.inl (by norm_num))⟩

/-! ## C10 — totality of getCurrentLevelConfig -/

/-- C10: `getCurrentLevelConfig` is total over every integer value of
`currentLevel`: an out-of-range index (negative or past the end) yields
the first catalog level, and the result is always a genuine catalog
entry; the embedding is a plain function with no failure path, unlike
the catalog's indexed-access contract. -/
theorem C10_getCurrentLevelConfig_total (gm : GameManager) :
    ((gm.currentLevel < 0 ∨ (LEVELS.length : Int) ≤ gm.currentLevel) →
      gm.getCurrentLevelConfig = LEVELS.getD 0 default) ∧
    gm.getCurrentLevelConfig ∈ LEVELS := by
  refine ⟨getCurrentLevelConfig_out_of_range gm, ?_⟩
  by_cases h : gm.currentLevel < 0 ∨ (LEVELS.length : Int) ≤ gm.currentLevel
  · rw [getCurrentLevelConfig_out_of_range gm h]
    norm_num [LEVELS]
  · push_neg at h
    rw [getCurrentLevelConfig_in_range gm h.1 h.2]
    have hlt : gm.currentLevel.toNat < LEVELS.length := by omega
    rw [List.getD_eq_getElem _ _ hlt]
    exact List.getElem_mem hlt

/-- C10 witness: a manager holding the invalid index −3 still gets the
first catalog level. -/
theorem C10_w :
    ({ initGameManager with currentLevel := -3 } :
        GameManager).getCurrentLevelConfig = LEVELS.getD 0 default :=
  (C10_getCurrentLevelConfig_total
    { initGameManager with currentLevel := -3 }).1 (Or.inl (by norm_num))

end WebXR

namespace WebXR

/-! ## C7 — level completion and the high-score table -/

/-- Setting one entry of an integer list to a value at least as large as
the old entry never decreases any `getD` read. -/
theorem getD_set_mono (l : List Int) (n : Nat) (v : Int) (i : Nat)
    (hv : l.getD n 0 ≤ v) : l.getD i 0 ≤ (l.set n v).getD i 0 := by
  by_cases hi : i < l.length
  · rw [List.getD_eq_getElem l 0 hi,
        List.getD_eq_getElem _ 0 (by simpa using hi)]
    by_cases hin : i = n
    · subst hin
      rw [List.getElem_set_self]
      rwa [List.getD_eq_getElem l 0 hi] at hv
    · rw [List.getElem_set_ne (fun h => hin h.symm)]
  · rw [List.getD_eq_default l 0 (by omega),
        List.getD_eq_default _ 0 (by simp; omega)]

/-- `completeLevel` never lowers any high-score entry. -/
theorem completeLevel_highScores_mono (gm : GameManager) (i : Nat) :
    gm.highScores.getD i 0 ≤ (gm.completeLevel).1.highScores.getD i 0 := by
  unfold GameManager.completeLevel GameManager.setState
  cases hget : gm.highScores.get? gm.currentLevel.toNat with
  | none => simp
  | some hs =>
      dsimp only
      split
      · next hcond =>
          dsimp only
          apply getD_set_mono
          have hhs : gm.highScores.getD gm.currentLevel.toNat 0 = hs := by
            rw [List.getD_eq_getD_get?, hget]
            rfl
          rw [hhs]
          exact le_of_lt hcond.2
      · simp

/-- After `completeLevel`, the stored high score of the current level is
at least the achieved score (it is overwritten exactly when beaten). -/
theorem completeLevel_records_high_score (gm : GameManager)
    (h0 : 0 ≤ gm.currentLevel)
    (h1 : gm.currentLevel.toNat < gm.highScores.length) :
    gm.score ≤ (gm.completeLevel).1.highScores.getD gm.currentLevel.toNat 0 := by
  unfold GameManager.completeLevel GameManager.setState
  cases hget : gm.highScores.get? gm.currentLevel.toNat with
  | none =>
      rw [List.get?_eq_get h1] at hget
      simp at hget
  | some hs =>
      have hhs : gm.highScores.getD gm.currentLevel.toNat 0 = hs := by
        rw [List.getD_eq_getD_get?, hget]
        rfl
      dsimp only
      split
      · next hcond =>
          try dsimp only
          rw [List.getD_eq_getElem _ 0 (by simpa using h1),
              List.getElem_set_self]
      · next hcond =>
          try dsimp only
          rw [hhs]
          push_neg at hcond
          exact hcond h0
  
/-- `startLevel` never touches the high-score table. -/
theorem startLevel_highScores (gm : GameManager) (i : Int) :
    (gm.startLevel i).1.highScores = gm.highScores := by
  rw [startLevel_eq gm i _ rfl]

/-- No controller operation lowers any high-score entry. -/
theorem applyOp_highScores_mono (gm : GameManager) (op : Op) (i : Nat) :
    gm.highScores.getD i 0 ≤ (applyOp gm op).1.highScores.getD i 0 := by
  cases op with
  | startLevel j =>
      dsimp [applyOp]
      rw [startLevel_highScores]
  | addScore p =>
      dsimp [applyOp]
      unfold GameManager.addScore
      dsimp only
      split
      · exact completeLevel_highScores_mono { gm with score := gm.score + p } i
      · simp
  | updateTime d =>
      dsimp [applyOp]
      by_cases h : gm.state = GameState.playing
      · rw [updateTime_playing gm d h]
        split <;> simp
      · rw [updateTime_not_playing gm d h]
  | nextLevel =>
      dsimp [applyOp]
      unfold GameManager.nextLevel
      split
      · rw [startLevel_highScores]
      · unfold GameManager.goToMenu GameManager.setState
        simp
  | goToMenu =>
      dsimp [applyOp]
      unfold GameManager.goToMenu GameManager.setState
      simp
  | restartLevel =>
      dsimp [applyOp]
      unfold GameManager.restartLevel
      rw [startLevel_highScores]

/-- C7: an `addScore` call that reaches the current level's goal leaves
the controller in LevelComplete with the stored high score of the
current level at least the new score; and no controller operation ever
lowers any entry of the high-score table, so each entry is monotonically
non-decreasing across all operations after construction. -/
theorem C7_highscores :
    (∀ (gm : GameManager) (p : Int),
      0 ≤ gm.currentLevel →
      gm.currentLevel.toNat < gm.highScores.length →
      gm.getCurrentLevelConfig.scoreToComplete ≤ gm.score + p →
      (gm.addScore p).1.state = GameState.levelComplete ∧
      (gm.addScore p).1.score ≤
        (gm.addScore p).1.highScores.getD gm.currentLevel.toNat 0) ∧
    (∀ (gm : GameManager) (op : Op) (i : Nat),
      gm.highScores.getD i 0 ≤ (applyOp gm op).1.highScores.getD i 0) := by
  constructor
  · intro gm p h0 h1 hgoal
    refine ⟨by rw [addScore_state gm p, if_pos hgoal], ?_⟩
    unfold GameManager.addScore
    dsimp only
    rw [if_pos
      (show (({ gm with score := gm.score + p } :
          GameManager).getCurrentLevelConfig).scoreToComplete ≤ gm.score + p
        from hgoal)]
    dsimp only
    rw [(completeLevel_fields { gm with score := gm.score + p }).1]
    exact completeLevel_records_high_score
      { gm with score := gm.score + p } h0 h1
  · exact applyOp_highScores_mono

/-- C7 witness: on level 0 (goal 30), `addScore(30)` from score 0 ends
in LevelComplete with `highScores[0] ≥ 30`. -/
theorem C7_w :
    ((initGameManager.startLevel 0).1.addScore 30).1.state =
      GameState.levelComplete ∧
    ((initGameManager.startLevel 0).1.addScore 30).1.score ≤
      ((initGameManager.startLevel 0).1.addScore 30).1.highScores.getD
        (initGameManager.startLevel 0).1.currentLevel.toNat 0 :=
  C7_highscores.1 (initGameManager.startLevel 0).1 30
    (by decide) (by decide) (by decide)

end WebXR

namespace WebXR

/-! ## Concrete worlds for the arena scenarios -/

/-- The Playing state right after `startLevel(0)`. -/
def playingL0 : GameManager := (initGameManager.startLevel 0).1

/-- A world with one projectile that, after moving for 0.01 s, sits
within the 1-unit radius of two visible targets at once. -/
def doubleHitWorld : World :=
  { gm := playingL0
    bullets :=
      [{ position := ⟨0, 1, -6⟩, velocity := ⟨0, 0, -10⟩, timeToLive := 1 }]
    targets :=
      [ { visible := true, position := ⟨0, 1, -61/10⟩,
          moveDirection := ⟨0, 0, 0⟩, moveSpeed := 0, isMoving := false },
        { visible := true, position := ⟨1/5, 1, -63/10⟩,
          moveDirection := ⟨0, 0, 0⟩, moveSpeed := 0, isMoving := false } ] }

/-- A world with one projectile whose `timeToLive` (0.05 s) falls below
zero during a 0.1 s tick, and no targets. -/
def expiringBulletWorld : World :=
  { gm := playingL0
    bullets :=
      [{ position := ⟨0, 1, -6⟩, velocity := ⟨0, 0, -10⟩, timeToLive := 1/20 }]
    targets := [] }

end WebXR

namespace WebXR

/-! ## C4 — one projectile can score more than once per tick -/

/-- C4, evaluated at the failing input: one projectile ends its move
within the 1-unit radius of two visible targets at once; the inner loop
of `updateBullets` has no early exit, so the projectile (deleted at the
first hit) still scores on the second — two scoring callbacks of 10
fire and the score rises by 20 in a single tick, against the claimed
at-most-one score per projectile. -/
theorem C4_double_score :
    (updateBullets (1/100) doubleHitWorld).1.gm.score = 20 ∧
    (updateBullets (1/100) doubleHitWorld).2 =
      [GMEvent.scoreChange 10, GMEvent.scoreChange 20] ∧
    (updateBullets (1/100) doubleHitWorld).1.bullets = [] := by
  norm_num [updateBullets, doubleHitWorld, playingL0, stepBullet, moveBullet,
    bulletHits, Vec3.distSq, Vec3.add, Vec3.smul, GameManager.addScore,
    GameManager.completeLevel, GameManager.setState,
    GameManager.getCurrentLevelConfig, GameManager.startLevel,
    initGameManager, LEVELS, List.filter, List.foldl]

/-! ## C5 — projectile expiry happens one tick late -/

/-- C5 counterexample: a projectile with 0.05 s to live, ticked by
0.1 s: the claim says its `timeToLive` falls below 0, so it must be
destroyed with no movement; the code instead tests the stale value
(still ≥ 0), moves it to `z = −7` and leaves it alive with
`timeToLive = −0.05` (to be destroyed only next tick). -/
theorem C5_cex :
    (updateBullets (1/10) expiringBulletWorld).1.bullets.map
      Bullet.timeToLive = [-(1/20)] ∧
    (updateBullets (1/10) expiringBulletWorld).1.bullets.map
      Bullet.position = [⟨0, 1, -7⟩] ∧
    expiringBulletWorld.bullets.map Bullet.position = [⟨0, 1, -6⟩] := by
  norm_num [updateBullets, expiringBulletWorld, playingL0, stepBullet,
    moveBullet, bulletHits, Vec3.distSq, Vec3.add, Vec3.smul,
    GameManager.startLevel, GameManager.setState,
    GameManager.getCurrentLevelConfig, initGameManager, LEVELS,
    List.filter, List.foldl]

/-- The survivors of the bullet fold: bullets whose pre-tick
`timeToLive` is already negative are dropped unprocessed; the rest move
(and have `timeToLive` decremented) and survive exactly when they hit
no visible target. -/
theorem stepBullet_foldl_bullets (targets : List Target) (δ : Rat)
    (bs : List Bullet) (gm : GameManager) (evs : List GMEvent)
    (alive : List Bullet) :
    (bs.foldl (stepBullet targets δ) (gm, evs, alive)).2.2 =
      alive ++
        ((bs.filter fun b => !decide (b.timeToLive < 0)).map
          (moveBullet δ)).filter
          (fun b => (bulletHits targets b).isEmpty) := by
  induction bs generalizing gm evs alive with
  | nil => simp
  | cons b bs ih =>
      rw [List.foldl_cons, List.filter_cons]
      by_cases httl : b.timeToLive < 0
      · rw [show stepBullet targets δ (gm, evs, alive) b = (gm, evs, alive)
          from by unfold stepBullet; rw [if_pos httl]]
        rw [ih]
        simp [httl]
      · by_cases hhit : (bulletHits targets (moveBullet δ b)).isEmpty
        · rw [show stepBullet targets δ (gm, evs, alive) b =
              (((bulletHits targets (moveBullet δ b)).foldl
                  (fun (p : GameManager × List GMEvent) _ =>
                    ((p.1.addScore 10).1, p.2 ++ (p.1.addScore 10).2))
                  (gm, evs)).1,
               ((bulletHits targets (moveBullet δ b)).foldl
                  (fun (p : GameManager × List GMEvent) _ =>
                    ((p.1.addScore 10).1, p.2 ++ (p.1.addScore 10).2))
                  (gm, evs)).2,
               alive ++ [moveBullet δ b])
            from by
              unfold stepBullet
              rw [if_neg httl]
              dsimp only
              rw [if_pos hhit]]
          rw [ih]
          simp [httl, hhit]
        · rw [show stepBullet targets δ (gm, evs, alive) b =
              (((bulletHits targets (moveBullet δ b)).foldl
                  (fun (p : GameManager × List GMEvent) _ =>
                    ((p.1.addScore 10).1, p.2 ++ (p.1.addScore 10).2))
                  (gm, evs)).1,
               ((bulletHits targets (moveBullet δ b)).foldl
                  (fun (p : GameManager × List GMEvent) _ =>
                    ((p.1.addScore 10).1, p.2 ++ (p.1.addScore 10).2))
                  (gm, evs)).2,
               alive)
            from by
              unfold stepBullet
              rw [if_neg httl]
              dsimp only
              rw [if_neg hhit]]
          rw [ih]
          simp [httl, hhit]

/-- C5 (amended): in each Playing-state update, a projectile whose
`timeToLive` is already below 0 (decremented past 0 on an earlier tick)
is destroyed with no movement and no collision test; every other
projectile first advances `position += velocity·delta` and has
`timeToLive` decremented, and then survives the tick exactly when no
visible target lies within the hit radius — so a projectile whose
`timeToLive` falls below 0 during this tick still moves and is
collision-tested, and is destroyed at the start of the next tick. -/
theorem C5_bullet_lifecycle (δ : Rat) (w : World)
    (h : w.gm.state = GameState.playing) :
    (updateBullets δ w).1.bullets =
      ((w.bullets.filter fun b => !decide (b.timeToLive < 0)).map
        (moveBullet δ)).filter
        (fun b => (bulletHits w.targets b).isEmpty) := by
  unfold updateBullets
  rw [if_neg (by simp [h])]
  dsimp only
  rw [stepBullet_foldl_bullets]
  simp

/-- C5 witness: the amended lifecycle at the expiring-bullet world. -/
theorem C5_w :
    (updateBullets (1/10) expiringBulletWorld).1.bullets =
      ((expiringBulletWorld.bullets.filter fun b =>
          !decide (b.timeToLive < 0)).map (moveBullet (1/10))).filter
        (fun b => (bulletHits expiringBulletWorld.targets b).isEmpty) :=
  C5_bullet_lifecycle (1/10) expiringBulletWorld (by decide)

end WebXR

namespace WebXR

/-! ## C9 — per-frame ordering and post-update consistency -/

/-- The post-call consistency the frame update maintains: whenever the
score has reached the current level's goal, the controller has already
left Playing (the transition is applied before the mutator returns). -/
def Consistent (gm : GameManager) : Prop :=
  gm.getCurrentLevelConfig.scoreToComplete ≤ gm.score →
    gm.state ≠ GameState.playing

/-- `getCurrentLevelConfig` only reads the level index. -/
theorem getCurrentLevelConfig_congr (g1 g2 : GameManager)
    (h : g1.currentLevel = g2.currentLevel) :
    g1.getCurrentLevelConfig = g2.getCurrentLevelConfig := by
  unfold GameManager.getCurrentLevelConfig
  rw [h]

/-- `addScore` returns consistent: it applies the LevelComplete
transition before returning whenever the goal is reached. -/
theorem addScore_consistent (gm : GameManager) (p : Int) :
    Consistent (gm.addScore p).1 := by
  intro hle
  rw [addScore_state gm p]
  rw [getCurrentLevelConfig_congr (gm.addScore p).1 gm
        (addScore_fields gm p).2.1,
      (addScore_fields gm p).1] at hle
  rw [if_pos hle]
  exact fun hcontra => GameState.noConfusion hcontra

/-- `updateTime` preserves consistency. -/
theorem updateTime_consistent (gm : GameManager) (δ : Rat)
    (h : Consistent gm) : Consistent (gm.updateTime δ).1 := by
  by_cases hp : gm.state = GameState.playing
  · rw [updateTime_playing gm δ hp]
    by_cases hle : gm.timeRemaining - δ ≤ 0
    · rw [if_pos hle]
      intro _ hcontra
      exact GameState.noConfusion hcontra
    · rw [if_neg hle]
      intro hgoal
      exact absurd hp (h hgoal)
  · rw [updateTime_not_playing gm δ hp]
    exact h

/-- The per-hit scoring fold preserves consistency. -/
theorem scoreFold_consistent (hits : List Target)
    (p : GameManager × List GMEvent) (h : Consistent p.1) :
    Consistent
      ((hits.foldl
        (fun (p : GameManager × List GMEvent) _ =>
          ((p.1.addScore 10).1, p.2 ++ (p.1.addScore 10).2)) p).1) := by
  induction hits generalizing p with
  | nil => exact h
  | cons t ts ih => exact ih _ (addScore_consistent _ _)

/-- One bullet step preserves consistency of the carried manager. -/
theorem stepBullet_consistent (targets : List Target) (δ : Rat)
    (acc : GameManager × List GMEvent × List Bullet) (b : Bullet)
    (h : Consistent acc.1) : Consistent (stepBullet targets δ acc b).1 := by
  unfold stepBullet
  by_cases httl : b.timeToLive < 0
  · rw [if_pos httl]
    exact h
  · rw [if_neg httl]
    dsimp only
    split
    · exact scoreFold_consistent _ _ h
    · exact scoreFold_consistent _ _ h

/-- The whole bullet pass preserves consistency. -/
theorem bulletFold_consistent (targets : List Target) (δ : Rat)
    (bs : List Bullet) (acc : GameManager × List GMEvent × List Bullet)
    (h : Consistent acc.1) :
    Consistent ((bs.foldl (stepBullet targets δ) acc).1) := by
  induction bs generalizing acc with
  | nil => exact h
  | cons b bs ih => exact ih _ (stepBullet_consistent targets δ acc b h)

/-- `updateTargets` never touches the game manager. -/
theorem updateTargets_gm (δ : Rat) (w : World) :
    (updateTargets δ w).1.gm = w.gm := by
  unfold updateTargets
  split
  · rfl
  · dsimp only
    split <;> rfl

/-- C9: within one frame, the session timer update runs first; if it
leaves Playing, the whole arena pass is skipped — bullets, targets,
manager and fired events are exactly those of the timer update alone —
and in every case the scoring applied synchronously during the frame
keeps the post-frame state consistent: a score at or above the goal is
never observed with the state still Playing. (All callbacks are part of
the returned event list, so they complete before `onFrame` returns by
construction.) -/
theorem C9_frame_ordering :
    (∀ (δ : Rat) (w : World),
      (w.gm.updateTime δ).1.state ≠ GameState.playing →
      (onFrame δ w).1.gm = (w.gm.updateTime δ).1 ∧
      (onFrame δ w).1.bullets = w.bullets ∧
      (onFrame δ w).1.targets = w.targets ∧
      (onFrame δ w).2 = (w.gm.updateTime δ).2) ∧
    (∀ (δ : Rat) (w : World),
      Consistent w.gm → Consistent (onFrame δ w).1.gm) := by
  constructor
  · intro δ w h
    unfold onFrame
    dsimp only
    rw [show updateBullets δ { w with gm := (w.gm.updateTime δ).1 } =
        ({ w with gm := (w.gm.updateTime δ).1 }, []) from by
      unfold updateBullets
      rw [if_pos h]]
    rw [show updateTargets δ { w with gm := (w.gm.updateTime δ).1 } =
        ({ w with gm := (w.gm.updateTime δ).1 }, []) from by
      unfold updateTargets
      rw [if_pos h]]
    exact ⟨rfl, rfl, rfl, by simp⟩
  · intro δ w h
    unfold onFrame
    dsimp only
    rw [updateTargets_gm]
    have h1 : Consistent (w.gm.updateTime δ).1 :=
      updateTime_consistent w.gm δ h
    unfold updateBullets
    split
    · exact h1
    · exact bulletFold_consistent _ δ _ _ h1

/-- C9 witness: a frame on the fresh Menu state changes nothing in the
arena and stays consistent. -/
theorem C9_w :
    (onFrame 1 ⟨initGameManager, [], []⟩).1.gm =
      (initGameManager.updateTime 1).1 ∧
    (onFrame 1 ⟨initGameManager, [], []⟩).1.bullets = [] ∧
    (onFrame 1 ⟨initGameManager, [], []⟩).1.targets = [] ∧
    (onFrame 1 ⟨initGameManager, [], []⟩).2 =
      (initGameManager.updateTime 1).2 ∧
    Consistent (onFrame 1 ⟨initGameManager, [], []⟩).1.gm := by
  have h := C9_frame_ordering.1 1 ⟨initGameManager, [], []⟩ (by decide)
  exact ⟨h.1, h.2.1, h.2.2.1, h.2.2.2,
    C9_frame_ordering.2 1 ⟨initGameManager, [], []⟩ (by intro hle; decide)⟩

end WebXR

namespace WebXR

/-! ## C8 — initializeTargets -/

/-- C8 counterexample: before the `targetModel` asset has loaded
(`hasTargetModel = false`) and with an empty pool, `initializeTargets`
for level 0 (which requests 3 targets) silently skips every slot and
activates none, against the claimed "never silently skipping any". -/
theorem C8_cex :
    initializeTargets (LEVELS.getD 0 default) false (fun _ => 1/2) [] = [] ∧
    (LEVELS.getD 0 default).targetCount = 3 := by
  constructor
  · decide
  · decide

/-- What the activation loop promises for each activated slot: visible,
positioned inside the arena bounds, carrying the level's speed and
movement flag. -/
def ActivatedFor (cfg : LevelConfig) (t : Target) : Prop :=
  t.visible = true ∧
  -5 ≤ t.position.x ∧ t.position.x ≤ 5 ∧
  1 ≤ t.position.y ∧ t.position.y ≤ 3 ∧
  -10 ≤ t.position.z ∧ t.position.z ≤ -5 ∧
  t.moveSpeed = cfg.targetSpeed ∧
  t.isMoving = cfg.movingTargets

/-- Activating a slot always lands inside the arena bounds when the
randomness source stays in `[0, 1)`. -/
theorem mkActiveTarget_activated (cfg : LevelConfig) (rng : Nat → Rat)
    (k : Nat) (t : Target) (hr : ∀ n, 0 ≤ rng n ∧ rng n < 1) :
    ActivatedFor cfg (mkActiveTarget cfg rng k t) := by
  obtain ⟨hx0, hx1⟩ := hr k
  obtain ⟨hy0, hy1⟩ := hr (k + 1)
  obtain ⟨hz0, hz1⟩ := hr (k + 2)
  unfold ActivatedFor mkActiveTarget
  refine ⟨rfl, ?_, ?_, ?_, ?_, ?_, ?_, rfl, rfl⟩ <;> dsimp only <;> linarith

/-- `getD` at an index other than the one being set is unchanged. -/
theorem getD_set_of_ne {α : Type} (l : List α) (i j : Nat) (v d : α)
    (h : j ≠ i) : (l.set i v).getD j d = l.getD j d := by
  by_cases hj : j < l.length
  · rw [List.getD_eq_getElem _ _ (by simpa using hj),
        List.getD_eq_getElem _ _ hj,
        List.getElem_set_ne (fun hh => h hh.symm)]
  · rw [List.getD_eq_default _ _ (by simp only [List.length_set]; omega),
        List.getD_eq_default _ _ (by omega)]

/-- `getD` at the index being set returns the new value. -/
theorem getD_set_self_of_lt {α : Type} (l : List α) (i : Nat) (v d : α)
    (h : i < l.length) : (l.set i v).getD i d = v := by
  rw [List.getD_eq_getElem _ _ (by simpa using h), List.getElem_set_self]

/-- One unfolding step of the activation loop. -/
theorem initTargetsLoop_succ (cfg : LevelConfig) (hm : Bool)
    (rng : Nat → Rat) (n i k : Nat) (ts : List Target) :
    initTargetsLoop cfg hm rng (n + 1) i k ts =
      if h : i < ts.length then
        initTargetsLoop cfg hm rng n (i + 1) (k + 5)
          (ts.set i (mkActiveTarget cfg rng k (ts.get ⟨i, h⟩)))
      else if hm then
        initTargetsLoop cfg hm rng n (i + 1) (k + 5)
          (ts ++ [mkActiveTarget cfg rng k cloneTargetModel])
      else
        initTargetsLoop cfg hm rng n (i + 1) k ts := rfl

/-- Loop invariant of the activation loop when the target model is
available: with `n` iterations left and the pool cursor at `i ≤ |ts|`,
the final pool has length `max |ts| (i + n)`, the slots below `i` and at
or above `i + n` are untouched, and every slot in `[i, i + n)` ends up
activated for the level. -/
theorem initTargetsLoop_spec (cfg : LevelConfig) (rng : Nat → Rat)
    (hr : ∀ n, 0 ≤ rng n ∧ rng n < 1) :
    ∀ (n i k : Nat) (ts : List Target), i ≤ ts.length →
      ((initTargetsLoop cfg true rng n i k ts).length =
        max ts.length (i + n)) ∧
      (∀ j, j < i →
        (initTargetsLoop cfg true rng n i k ts).getD j default =
          ts.getD j default) ∧
      (∀ j, i ≤ j → j < i + n →
        ActivatedFor cfg
          ((initTargetsLoop cfg true rng n i k ts).getD j default)) ∧
      (∀ j, i + n ≤ j →
        (initTargetsLoop cfg true rng n i k ts).getD j default =
          ts.getD j default) := by
  intro n
  induction n with
  | zero =>
      intro i k ts hi
      refine ⟨?_, fun j _ => rfl, fun j hij hlt => absurd hlt (by omega),
        fun j _ => rfl⟩
      show ts.length = max ts.length (i + 0)
      omega
  | succ n ih =>
      intro i k ts hi
      by_cases hlt : i < ts.length
      · rw [initTargetsLoop_succ, dif_pos hlt]
        obtain ⟨L, A, B, C⟩ := ih (i + 1) (k + 5)
          (ts.set i (mkActiveTarget cfg rng k (ts.get ⟨i, hlt⟩)))
          (by simp only [List.length_set]; omega)
        refine ⟨?_, ?_, ?_, ?_⟩
        · rw [L]
          simp only [List.length_set]
          omega
        · intro j hj
          rw [A j (by omega)]
          exact getD_set_of_ne ts i j _ _ (by omega)
        · intro j hij hjn
          by_cases hji : j = i
          · subst hji
            rw [A j (by omega), getD_set_self_of_lt ts j _ _ hlt]
            exact mkActiveTarget_activated cfg rng k _ hr
          · exact B j (by omega) (by omega)
        · intro j hj
          rw [C j (by omega)]
          exact getD_set_of_ne ts i j _ _ (by omega)
      · have hieq : i = ts.length := by omega
        rw [initTargetsLoop_succ, dif_neg hlt, if_pos rfl]
        obtain ⟨L, A, B, C⟩ := ih (i + 1) (k + 5)
          (ts ++ [mkActiveTarget cfg rng k cloneTargetModel])
          (by simp; omega)
        refine ⟨?_, ?_, ?_, ?_⟩
        · rw [L]
          simp only [List.length_append, List.length_singleton]
          omega
        · intro j hj
          rw [A j (by omega)]
          exact List.getD_append _ _ _ _ (by omega)
        · intro j hij hjn
          by_cases hji : j = i
          · subst hji
            rw [A j (by omega),
                List.getD_append_right _ _ _ _ (by omega), hieq]
            simp only [Nat.sub_self]
            exact mkActiveTarget_activated cfg rng k cloneTargetModel hr
          · exact B j (by omega) (by omega)
        · intro j hj
          rw [C j (by omega),
              List.getD_eq_default _ _ (by simp; omega),
              List.getD_eq_default _ _ (by omega)]

/-- C8 (amended): provided the target prototype model has loaded,
`initializeTargets` grows the pool on demand to `max poolSize
targetCount`, activates exactly the first `targetCount` slots — each
visible, within the arena bounds `x ∈ [−5,5]`, `y ∈ [1,3]`,
`z ∈ [−10,−5]`, with `moveSpeed = targetSpeed` and `isMoving =
movingTargets` — and every remaining slot is left deactivated; without
the prototype (asset not yet loaded) slots beyond the existing pool are
silently skipped. -/
theorem C8_initializeTargets (cfg : LevelConfig) (rng : Nat → Rat)
    (ts : List Target) (hr : ∀ n, 0 ≤ rng n ∧ rng n < 1) :
    ((initializeTargets cfg true rng ts).length =
      max ts.length cfg.targetCount) ∧
    (∀ j, j < cfg.targetCount →
      ActivatedFor cfg ((initializeTargets cfg true rng ts).getD j default)) ∧
    (∀ j, cfg.targetCount ≤ j →
      j < (initializeTargets cfg true rng ts).length →
      ((initializeTargets cfg true rng ts).getD j default).visible
        = false) := by
  obtain ⟨L, A, B, C⟩ := initTargetsLoop_spec cfg rng hr cfg.targetCount 0 0
    (ts.map fun t => { t with visible := false }) (by omega)
  have hlen : (ts.map fun t => { t with visible := false }).length
      = ts.length := List.length_map _ _
  unfold initializeTargets
  dsimp only
  refine ⟨?_, ?_, ?_⟩
  · rw [L, hlen]
    omega
  · intro j hj
    exact B j (by omega) (by omega)
  · intro j hj hjlen
    rw [C j (by omega)]
    have hjts : j < ts.length := by
      rw [L, hlen] at hjlen
      omega
    rw [List.getD_eq_getElem _ _ (by rw [hlen]; omega), List.getElem_map]

/-- C8 witness: the amended statement at level 0 with an empty pool and
the constant-1/2 randomness source. -/
theorem C8_w :
    ((initializeTargets (LEVELS.getD 0 default) true (fun _ => 1/2)
        []).length = max ([] : List Target).length
        (LEVELS.getD 0 default).targetCount) ∧
    (∀ j, j < (LEVELS.getD 0 default).targetCount →
      ActivatedFor (LEVELS.getD 0 default)
        ((initializeTargets (LEVELS.getD 0 default) true (fun _ => 1/2)
          []).getD j default)) ∧
    (∀ j, (LEVELS.getD 0 default).targetCount ≤ j →
      j < (initializeTargets (LEVELS.getD 0 default) true (fun _ => 1/2)
        []).length →
      ((initializeTargets (LEVELS.getD 0 default) true (fun _ => 1/2)
        []).getD j default).visible = false) :=
  C8_initializeTargets (LEVELS.getD 0 default) (fun _ => 1/2) []
    (fun n => ⟨by norm_num, by norm_num⟩)

end WebXR
